import Mathlib

/-!
# Verification of the kvstore slotted-page key-value store

Shallow embedding of the Go sources (`page.go`, `storage.go`) of the
`saravanasai/kvstore` repository, together with theorems settling the
frozen claims about the specification.

Modelling conventions:
* Go machine integers (`uint16`, `uint32`, `uint64`, `byte`) are `Nat`
  with explicit `% 2^w` at the operations where the Go code can wrap or
  truncate.
* The page buffer `Ptr [4080]byte` is a total function `Nat → Nat`; only
  indices `< 4080` are meaningful.  Go panics on out-of-range slice
  accesses; all theorems below are stated on well-formed pages for which
  every access performed by the source is in range, so the total model
  agrees with the source on the theorems' domains.
* The `Disk` of `storage.go` wraps OS file I/O (`ReadAt`/`WriteAt`).
  It is modelled as a byte store `Nat → Nat` plus failure oracles:
  `failRead off` / `failWrite off` tell whether the I/O call starting at
  byte offset `off` fails, mirroring the fact that the Go code only
  observes success or failure of each call.  A failed write leaves the
  modelled store unchanged.
* Go methods that mutate a struct in place become functions returning
  the new value; fallible operations return `Except KVError _`.
-/

/-- Errors of the store, one constructor per `errors.New` site in the
source plus the I/O failures propagated from the `Disk`. -/
inductive KVError where
  /-- `"key size exceeds maximum allowed"` in `WriteRecord`. -/
  | keyTooLarge
  /-- `"value size exceeds maximum allowed"` in `WriteRecord`. -/
  | valueTooLarge
  /-- `"not enough space"` in `WriteRecord`. -/
  | insufficientSpace
  /-- `"no page with enough space"` in `findPageWithSpace`. -/
  | noSpaceAvailable
  /-- an error returned by `Disk.Read`. -/
  | readFailure
  /-- an error returned by `Disk.Write`. -/
  | writeFailure
  /-- `"key not found"` in `FindRecord`. -/
  | keyNotFound
  deriving DecidableEq

/-- A page buffer / disk image: byte value at each index. -/
def Buf : Type := Nat → Nat

/-- Store one byte, truncating to a byte value as every Go store into a
`[]byte` does. -/
def setByte (b : Buf) (i v : Nat) : Buf :=
  fun j => if j = i then v % 256 else b j

/-- `binary.LittleEndian.PutUint16 buf[pos:pos+2] v`. -/
def putUint16 (b : Buf) (pos v : Nat) : Buf :=
  setByte (setByte b pos v) (pos + 1) (v / 256)

/-- `binary.LittleEndian.Uint16 buf[pos:pos+2]`. -/
def getUint16 (b : Buf) (pos : Nat) : Nat :=
  b pos + 256 * b (pos + 1)

/-- `binary.LittleEndian.PutUint32 buf[pos:pos+4] v`. -/
def putUint32 (b : Buf) (pos v : Nat) : Buf :=
  setByte (setByte (setByte (setByte b pos v) (pos + 1) (v / 256))
    (pos + 2) (v / 65536)) (pos + 3) (v / 16777216)

/-- `binary.LittleEndian.Uint32 buf[pos:pos+4]`. -/
def getUint32 (b : Buf) (pos : Nat) : Nat :=
  b pos + 256 * b (pos + 1) + 65536 * b (pos + 2) + 16777216 * b (pos + 3)

/-- `binary.LittleEndian.PutUint64 buf[pos:pos+8] v`. -/
def putUint64 (b : Buf) (pos v : Nat) : Buf :=
  setByte (setByte (setByte (setByte (setByte (setByte (setByte (setByte
    b pos v)
    (pos + 1) (v / 256))
    (pos + 2) (v / 65536))
    (pos + 3) (v / 16777216))
    (pos + 4) (v / 4294967296))
    (pos + 5) (v / 1099511627776))
    (pos + 6) (v / 281474976710656))
    (pos + 7) (v / 72057594037927936)

/-- `binary.LittleEndian.Uint64 buf[pos:pos+8]`. -/
def getUint64 (b : Buf) (pos : Nat) : Nat :=
  b pos + 256 * b (pos + 1) + 65536 * b (pos + 2) + 16777216 * b (pos + 3) +
    4294967296 * b (pos + 4) + 1099511627776 * b (pos + 5) +
    281474976710656 * b (pos + 6) + 72057594037927936 * b (pos + 7)

/-- `copy(buf[pos:pos+len(l)], l)`: store a byte sequence. -/
def writeBytes (b : Buf) (pos : Nat) : List Nat → Buf
  | [] => b
  | x :: xs => writeBytes (setByte b pos x) (pos + 1) xs

/-- Read `n` bytes starting at `pos` (a Go subslice, materialised). -/
def readBytes (b : Buf) (pos : Nat) : Nat → List Nat
  | 0 => []
  | n + 1 => b pos :: readBytes b (pos + 1) n

/-- The `SlotArr` struct of `page.go`: one 6-byte slot entry. -/
structure SlotArr where
  offset : Nat
  len : Nat
  flag : Nat
  deriving DecidableEq

/-- The `Page` struct of `page.go`.  `buf` is the `Ptr` data region of
`PageSize - HeaderSize = 4080` bytes. -/
structure Page where
  pageId : Nat
  count : Nat
  freeSpace : Nat
  dataStart : Nat
  buf : Buf

/-- `(*Page).GetSlot`: decode the 6-byte entry at `index * SlotArrSize`. -/
def getSlot (p : Page) (index : Nat) : SlotArr :=
  { offset := getUint16 p.buf (index * 6)
    len := getUint16 p.buf (index * 6 + 2)
    flag := getUint16 p.buf (index * 6 + 4) }

/-- `(*Page).SetSlot`: encode a slot entry into its 6-byte window. -/
def setSlot (p : Page) (index : Nat) (slot : SlotArr) : Page :=
  let b1 := putUint16 p.buf (index * 6) slot.offset
  let b2 := putUint16 b1 (index * 6 + 2) slot.len
  let b3 := putUint16 b2 (index * 6 + 4) slot.flag
  { p with buf := b3 }

/-- The successful branch of `(*Page).WriteRecord`, after the three
guards have passed.  `recordSize = KeySize + ValueSize + len(key) +
len(value)`; once the guards pass `recordSize ≤ 804 < 2^16`, so
`uint16(recordSize)` is `recordSize` itself, and the `uint16`
subtractions of the source are written with their explicit wrap. -/
def writtenPage (p : Page) (key value : List Nat) : Page :=
  let recordSize := 2 + 2 + key.length + value.length
  -- `if p.Count == 0 { p.DataStart = PageSize - HeaderSize }`
  let ds := if p.count = 0 then 4080 else p.dataStart
  -- `newDataStart := p.DataStart - uint16(recordSize)` (uint16 wrap)
  let newDataStart := (ds + 65536 - recordSize) % 65536
  let buf1 := putUint16 p.buf newDataStart key.length
  let buf2 := putUint16 buf1 (newDataStart + 2) value.length
  let buf3 := writeBytes buf2 (newDataStart + 4) key
  let buf4 := writeBytes buf3 (newDataStart + 4 + key.length) value
  let p1 := setSlot { p with buf := buf4 } p.count
    { offset := newDataStart, len := recordSize % 65536, flag := 0 }
  { p1 with
    dataStart := newDataStart
    count := (p.count + 1) % 4294967296
    freeSpace := (p.freeSpace + 65536 - (recordSize + 6)) % 65536 }

/-- `(*Page).WriteRecord`.  The source mutates the receiver and returns
`error`; since every `return err` occurs before the first mutation, it
is embedded as a function returning either the mutated page or the
error (the Go page is unchanged in the error cases). -/
def writeRecord (p : Page) (key value : List Nat) : Except KVError Page :=
  if 400 < key.length then .error .keyTooLarge
  else if 400 < value.length then .error .valueTooLarge
  else if p.freeSpace < 2 + 2 + key.length + value.length + 6 then
    .error .insufficientSpace
  else .ok (writtenPage p key value)

/-- State-passing view of `WriteRecord`: the pair (returned error, page
after the call).  In the source all error returns precede any mutation,
so on error the page is the original one. -/
def writeRecordM (p : Page) (key value : List Nat) :
    Except KVError Unit × Page :=
  match writeRecord p key value with
  | .ok p2 => (.ok (), p2)
  | .error e => (.error e, p)

/-- The loop body/recursion of `(*Page).ReadRecord`: scan slots
`i, i+1, ...` while `fuel` iterations remain (`fuel = p.Count - i`). -/
def readFrom (p : Page) (key : List Nat) : Nat → Nat → Option (List Nat)
  | _, 0 => none
  | i, fuel + 1 =>
    let slot := getSlot p i
    if slot.flag ≠ 0 then readFrom p key (i + 1) fuel
    else
      let keySize := getUint16 p.buf slot.offset
      let valueSize := getUint16 p.buf (slot.offset + 2)
      let recordKey := readBytes p.buf (slot.offset + 4) keySize
      let recordValue := readBytes p.buf (slot.offset + 4 + keySize) valueSize
      if recordKey = key then some recordValue
      else readFrom p key (i + 1) fuel

/-- `(*Page).ReadRecord`: `some value` stands for `(value, true)`,
`none` for `("", false)`. -/
def readRecord (p : Page) (key : List Nat) : Option (List Nat) :=
  readFrom p key 0 p.count

/-- `(*Page).HasSpace`: `int(p.FreeSpace) >= recordSize`. -/
def hasSpace (p : Page) (recordSize : Nat) : Bool :=
  recordSize ≤ p.freeSpace

/-- The page value built by `(*PageManager).CreatePage` (and the Go
zero value for `DataStart`, which `CreatePage` leaves at `0`). -/
def freshPage (pid : Nat) : Page :=
  { pageId := pid, count := 0, freeSpace := 4080, dataStart := 0
    buf := fun _ => 0 }

/-- The `DatabaseMeta` struct of `page.go`. -/
structure DatabaseMeta where
  nextPageId : Nat
  pageCount : Nat
  lastPageId : Nat
  deriving DecidableEq

/-- The `PageManager` struct of `page.go`.  Its `Pages` in-memory cache
field is never read or written after construction in the source, so it
is omitted here; only the metadata is live state (the `Disk` handle is
passed explicitly). -/
structure PageManager where
  meta : DatabaseMeta
  deriving DecidableEq

/-- The `Disk` of `storage.go`: byte content of the backing file plus
failure oracles for `ReadAt`/`WriteAt` keyed by starting offset. -/
structure DiskModel where
  data : Nat → Nat
  failRead : Nat → Bool
  failWrite : Nat → Bool

/-- `(*Disk).Read(offset, len)`: the `len` bytes starting at `offset`,
returned as the shifted byte function, or a read failure. -/
def diskRead (d : DiskModel) (offset : Nat) : Except KVError Buf :=
  if d.failRead offset then .error .readFailure
  else .ok (fun i => d.data (offset + i))

/-- `(*Disk).Write(offset, data)` for a buffer of `len` bytes: update
the backing store, or report a write failure (leaving the store as is). -/
def diskWrite (d : DiskModel) (offset : Nat) (bytes : Buf) (len : Nat) :
    Except KVError DiskModel :=
  if d.failWrite offset then .error .writeFailure
  else .ok { d with
    data := fun i => if offset ≤ i ∧ i < offset + len then bytes (i - offset)
      else d.data i }

/-- `NewPageManager`: initial metadata `{NextPageId: 1, PageCount: 0,
LastPageId: 1}`. -/
def newPageManager : PageManager :=
  { meta := { nextPageId := 1, pageCount := 0, lastPageId := 1 } }

/-- `(*PageManager).CreatePage`: the freshly allocated page and the
manager with advanced metadata (uint64 fields wrap at `2^64`). -/
def createPage (pm : PageManager) : Page × PageManager :=
  (freshPage pm.meta.nextPageId,
   { meta := { nextPageId := (pm.meta.nextPageId + 1) % 18446744073709551616
               pageCount := (pm.meta.pageCount + 1) % 18446744073709551616
               lastPageId := pm.meta.nextPageId } })

/-- The 4096-byte on-disk image of a page written by
`(*PageManager).writePageToDisk`: 16-byte little-endian header followed
by the data region. -/
def encodePage (p : Page) : Buf :=
  let b1 := putUint64 (fun _ => 0) 0 p.pageId
  let b2 := putUint32 b1 8 p.count
  let b3 := putUint16 b2 12 p.freeSpace
  let b4 := putUint16 b3 14 p.dataStart
  fun i => if i < 16 then b4 i else p.buf (i - 16)

/-- `(*PageManager).writePageToDisk`: write the page image at offset
`PageId * PageSize`. -/
def writePageToDisk (d : DiskModel) (page : Page) : Except KVError DiskModel :=
  diskWrite d (page.pageId * 4096) (encodePage page) 4096

/-- The 4096-byte image of the metadata page written by
`(*PageManager).SaveMetaDataPage`: three little-endian uint64 fields,
zero padding. -/
def encodeMeta (m : DatabaseMeta) : Buf :=
  let b1 := putUint64 (fun _ => 0) 0 m.nextPageId
  let b2 := putUint64 b1 8 m.pageCount
  putUint64 b2 16 m.lastPageId

/-- `(*PageManager).SaveMetaDataPage`: write the metadata image to
page 0 (offset 0). -/
def saveMetaDataPage (pm : PageManager) (d : DiskModel) :
    Except KVError DiskModel :=
  diskWrite d 0 (encodeMeta pm.meta) 4096

/-- `(*PageManager).LoadMetaPage`: read page 0 and decode the three
metadata fields, or propagate the read failure. -/
def loadMetaPage (_pm : PageManager) (d : DiskModel) :
    Except KVError PageManager :=
  match diskRead d 0 with
  | .error e => .error e
  | .ok buf => .ok { meta :=
      { nextPageId := getUint64 buf 0
        pageCount := getUint64 buf 8
        lastPageId := getUint64 buf 16 } }

/-- `(*PageManager).LoadPage`: read the 4096 bytes at `pageId *
PageSize`, decode the header, copy the data region. -/
def loadPage (d : DiskModel) (pageId : Nat) : Except KVError Page :=
  match diskRead d (pageId * 4096) with
  | .error e => .error e
  | .ok buf => .ok
      { pageId := getUint64 buf 0
        count := getUint32 buf 8
        freeSpace := getUint16 buf 12
        dataStart := getUint16 buf 14
        buf := fun i => buf (16 + i) }

/-- `(*PageManager).findPageWithSpace`'s scan: try page ids `pageId,
pageId+1, ...` while `fuel` ids remain; pages that fail to load are
skipped; the first page with `HasSpace(recordSize)` is returned. -/
def findPageWithSpaceAux (d : DiskModel) (recordSize pageId : Nat) :
    Nat → Except KVError Page
  | 0 => .error .noSpaceAvailable
  | fuel + 1 =>
    match loadPage d pageId with
    | .error _ => findPageWithSpaceAux d recordSize (pageId + 1) fuel
    | .ok page =>
      if hasSpace page recordSize then .ok page
      else findPageWithSpaceAux d recordSize (pageId + 1) fuel

/-- `(*PageManager).findPageWithSpace`: scan ids `1 .. LastPageId`. -/
def findPageWithSpace (pm : PageManager) (d : DiskModel) (recordSize : Nat) :
    Except KVError Page :=
  findPageWithSpaceAux d recordSize 1 pm.meta.lastPageId

/-- The shared tail of `(*PageManager).InsertRecord` after a target page
has been selected: write the record in memory, then persist the page;
the result carries the error returned to the caller and the manager and
disk state after the call. -/
def insertTail (pm : PageManager) (d : DiskModel) (page : Page)
    (key value : List Nat) : Except KVError Unit × PageManager × DiskModel :=
  match writeRecord page key value with
  | .error e => (.error e, pm, d)
  | .ok page2 =>
    match writePageToDisk d page2 with
    | .error e => (.error e, pm, d)
    | .ok d2 => (.ok (), pm, d2)

/-- `(*PageManager).InsertRecord`.  Note the source line
`pm.SaveMetaDataPage()` whose returned error is discarded: a failed
metadata write leaves the disk unchanged and execution continues. -/
def insertRecord (pm : PageManager) (d : DiskModel) (key value : List Nat) :
    Except KVError Unit × PageManager × DiskModel :=
  let recordSize := 2 + 2 + key.length + value.length
  match findPageWithSpace pm d recordSize with
  | .ok page => insertTail pm d page key value
  | .error _ =>
    let pair := createPage pm
    match writePageToDisk d pair.1 with
    | .error e => (.error e, pair.2, d)
    | .ok d2 =>
      match saveMetaDataPage pair.2 d2 with
      | .error _ => insertTail pair.2 d2 pair.1 key value
      | .ok d3 => insertTail pair.2 d3 pair.1 key value

/-- `(*PageManager).FindRecord`'s scan over page ids. -/
def findRecordAux (d : DiskModel) (key : List Nat) (pageId : Nat) :
    Nat → Except KVError (List Nat)
  | 0 => .error .keyNotFound
  | fuel + 1 =>
    match loadPage d pageId with
    | .error _ => findRecordAux d key (pageId + 1) fuel
    | .ok page =>
      match readRecord page key with
      | some value => .ok value
      | none => findRecordAux d key (pageId + 1) fuel

/-- `(*PageManager).FindRecord`: scan ids `1 .. LastPageId`, skipping
pages that fail to load. -/
def findRecord (pm : PageManager) (d : DiskModel) (key : List Nat) :
    Except KVError (List Nat) :=
  findRecordAux d key 1 pm.meta.lastPageId

/-- Extract the page of a successful result (`dflt` unused when the
result is `ok`); lets concrete pages be named without `Inhabited`. -/
def okPage (e : Except KVError Page) (dflt : Page) : Page :=
  match e with
  | .ok p => p
  | .error _ => dflt

/-- Extract the disk of a successful result. -/
def okDisk (e : Except KVError DiskModel) (dflt : DiskModel) : DiskModel :=
  match e with
  | .ok d => d
  | .error _ => dflt

/-- Whether an `Except` result is a success. -/
def isOkE {α : Type _} (e : Except KVError α) : Bool :=
  match e with
  | .ok _ => true
  | .error _ => false

instance {ε α : Type _} [DecidableEq ε] [DecidableEq α] :
    DecidableEq (Except ε α) := fun a b =>
  match a, b with
  | .ok x, .ok y =>
    if h : x = y then .isTrue (by rw [h]) else .isFalse (by simp [h])
  | .error x, .error y =>
    if h : x = y then .isTrue (by rw [h]) else .isFalse (by simp [h])
  | .ok _, .error _ => .isFalse (by simp)
  | .error _, .ok _ => .isFalse (by simp)

/-! ## Byte-level lemmas -/

theorem setByte_self (b : Buf) (i v : Nat) : setByte b i v i = v % 256 := by
  simp [setByte]

theorem setByte_other (b : Buf) (i v j : Nat) (h : j ≠ i) :
    setByte b i v j = b j := by
  simp [setByte, h]

theorem setByte_lt (b : Buf) (i v : Nat) (hb : ∀ j, b j < 256) (j : Nat) :
    setByte b i v j < 256 := by
  unfold setByte
  by_cases h : j = i <;> simp [h, Nat.mod_lt, hb]

theorem putUint16_other (b : Buf) (pos v j : Nat) (h1 : j ≠ pos)
    (h2 : j ≠ pos + 1) : putUint16 b pos v j = b j := by
  unfold putUint16
  rw [setByte_other _ _ _ _ h2, setByte_other _ _ _ _ h1]

theorem getUint16_putUint16 (b : Buf) (pos v : Nat) :
    getUint16 (putUint16 b pos v) pos = v % 65536 := by
  unfold getUint16 putUint16
  rw [setByte_other _ _ _ _ (by omega), setByte_self, setByte_self]
  omega

theorem putUint16_lt (b : Buf) (pos v : Nat) (hb : ∀ j, b j < 256) (j : Nat) :
    putUint16 b pos v j < 256 := by
  unfold putUint16
  exact setByte_lt _ _ _ (fun j => setByte_lt _ _ _ hb j) j

theorem writeBytes_other (l : List Nat) (b : Buf) (pos j : Nat)
    (h : j < pos ∨ pos + l.length ≤ j) : writeBytes b pos l j = b j := by
  induction l generalizing b pos with
  | nil => rfl
  | cons x xs ih =>
    unfold writeBytes
    rw [ih _ _ (by simp at h; omega), setByte_other _ _ _ _ (by simp at h; omega)]

theorem writeBytes_lt (l : List Nat) (b : Buf) (pos : Nat)
    (hb : ∀ j, b j < 256) (j : Nat) : writeBytes b pos l j < 256 := by
  induction l generalizing b pos with
  | nil => exact hb j
  | cons x xs ih => exact ih _ _ (fun j => setByte_lt _ _ _ hb j)

theorem readBytes_congr (n : Nat) (b1 b2 : Buf) (pos : Nat)
    (h : ∀ j, pos ≤ j → j < pos + n → b1 j = b2 j) :
    readBytes b1 pos n = readBytes b2 pos n := by
  induction n generalizing pos with
  | zero => rfl
  | succ n ih =>
    unfold readBytes
    rw [h pos (by omega) (by omega), ih (pos + 1) (fun j hj1 hj2 => h j (by omega) (by omega))]

theorem readBytes_writeBytes (l : List Nat) (b : Buf) (pos : Nat) :
    readBytes (writeBytes b pos l) pos l.length = l.map (fun x => x % 256) := by
  induction l generalizing b pos with
  | nil => rfl
  | cons x xs ih =>
    unfold writeBytes readBytes
    simp only [List.length_cons, List.map_cons]
    rw [writeBytes_other _ _ _ _ (by omega), setByte_self, ih]

theorem readBytes_length (b : Buf) (pos n : Nat) :
    (readBytes b pos n).length = n := by
  induction n generalizing pos with
  | zero => rfl
  | succ n ih => unfold readBytes; simp [ih]

/-- Reading a 2-byte window is unaffected by a `putUint16` elsewhere. -/
theorem getUint16_putUint16_other (b : Buf) (pos v pos' : Nat)
    (h : pos' + 2 ≤ pos ∨ pos + 2 ≤ pos') :
    getUint16 (putUint16 b pos v) pos' = getUint16 b pos' := by
  unfold getUint16
  rw [putUint16_other _ _ _ _ (by omega) (by omega),
    putUint16_other _ _ _ _ (by omega) (by omega)]

/-- Reading a 2-byte window is unaffected by a `writeBytes` elsewhere. -/
theorem getUint16_writeBytes_other (l : List Nat) (b : Buf) (pos pos' : Nat)
    (h : pos' + 2 ≤ pos ∨ pos + l.length ≤ pos') :
    getUint16 (writeBytes b pos l) pos' = getUint16 b pos' := by
  unfold getUint16
  rw [writeBytes_other _ _ _ _ (by omega), writeBytes_other _ _ _ _ (by omega)]

/-!
## Characterisation of the successful `WriteRecord`

Throughout, `nds` abbreviates the new data start.  The hypotheses are
those available on every well-formed page at the moment the source's
guards have passed: the (effective) data start is at most the data
region size `4080` and leaves room for the slot array plus the record.
-/

theorem writtenPage_pageId (p : Page) (k v : List Nat) :
    (writtenPage p k v).pageId = p.pageId := rfl

theorem writtenPage_count (p : Page) (k v : List Nat) (hc : p.count ≤ 680) :
    (writtenPage p k v).count = p.count + 1 := by
  simp only [writtenPage, setSlot]
  omega

theorem writtenPage_dataStart (p : Page) (k v : List Nat) (nds : Nat)
    (hnds : nds + (2 + 2 + k.length + v.length) =
      (if p.count = 0 then 4080 else p.dataStart))
    (hds : (if p.count = 0 then 4080 else p.dataStart) ≤ 4080) :
    (writtenPage p k v).dataStart = nds := by
  simp only [writtenPage, setSlot]
  generalize hg : (if p.count = 0 then 4080 else p.dataStart) = D at hnds hds
  omega

theorem writtenPage_freeSpace (p : Page) (k v : List Nat)
    (hfs1 : 2 + 2 + k.length + v.length + 6 ≤ p.freeSpace)
    (hfs2 : p.freeSpace ≤ 4080) :
    (writtenPage p k v).freeSpace =
      p.freeSpace - (2 + 2 + k.length + v.length + 6) := by
  simp only [writtenPage, setSlot]
  omega

theorem writtenPage_buf_frame (p : Page) (k v : List Nat) (nds : Nat)
    (hnds : nds + (2 + 2 + k.length + v.length) =
      (if p.count = 0 then 4080 else p.dataStart))
    (hds : (if p.count = 0 then 4080 else p.dataStart) ≤ 4080)
    (hslot : 6 * p.count + 6 ≤ nds)
    (j : Nat)
    (hj1 : j < 6 * p.count ∨ 6 * p.count + 6 ≤ j)
    (hj2 : j < nds ∨ (if p.count = 0 then 4080 else p.dataStart) ≤ j) :
    (writtenPage p k v).buf j = p.buf j := by
  simp only [writtenPage, setSlot]
  generalize hg : (if p.count = 0 then 4080 else p.dataStart) = D at hnds hds hj2 ⊢
  have hmod : (D + 65536 - (2 + 2 + k.length + v.length)) % 65536 = nds := by
    omega
  rw [hmod]
  rw [putUint16_other _ _ _ _ (by omega) (by omega),
    putUint16_other _ _ _ _ (by omega) (by omega),
    putUint16_other _ _ _ _ (by omega) (by omega),
    writeBytes_other _ _ _ _ (by omega),
    writeBytes_other _ _ _ _ (by omega),
    putUint16_other _ _ _ _ (by omega) (by omega),
    putUint16_other _ _ _ _ (by omega) (by omega)]

theorem writtenPage_slot (p : Page) (k v : List Nat) (nds : Nat)
    (hnds : nds + (2 + 2 + k.length + v.length) =
      (if p.count = 0 then 4080 else p.dataStart))
    (hds : (if p.count = 0 then 4080 else p.dataStart) ≤ 4080)
    (hslot : 6 * p.count + 6 ≤ nds) :
    getSlot (writtenPage p k v) p.count =
      { offset := nds, len := 2 + 2 + k.length + v.length, flag := 0 } := by
  simp only [writtenPage, setSlot, getSlot]
  generalize hg : (if p.count = 0 then 4080 else p.dataStart) = D at hnds hds
  have hmod : (D + 65536 - (2 + 2 + k.length + v.length)) % 65536 = nds := by
    omega
  rw [hmod]
  have h1 : getUint16 (putUint16 (putUint16 (putUint16
      (writeBytes (writeBytes (putUint16 (putUint16 p.buf nds k.length)
        (nds + 2) v.length) (nds + 4) k) (nds + 4 + k.length) v)
      (p.count * 6) nds) (p.count * 6 + 2)
      ((2 + 2 + k.length + v.length) % 65536)) (p.count * 6 + 4) 0)
      (p.count * 6) = nds := by
    rw [getUint16_putUint16_other _ _ _ _ (by omega),
      getUint16_putUint16_other _ _ _ _ (by omega),
      getUint16_putUint16]
    omega
  have h2 : getUint16 (putUint16 (putUint16 (putUint16
      (writeBytes (writeBytes (putUint16 (putUint16 p.buf nds k.length)
        (nds + 2) v.length) (nds + 4) k) (nds + 4 + k.length) v)
      (p.count * 6) nds) (p.count * 6 + 2)
      ((2 + 2 + k.length + v.length) % 65536)) (p.count * 6 + 4) 0)
      (p.count * 6 + 2) = 2 + 2 + k.length + v.length := by
    rw [getUint16_putUint16_other _ _ _ _ (by omega), getUint16_putUint16]
    omega
  have h3 : getUint16 (putUint16 (putUint16 (putUint16
      (writeBytes (writeBytes (putUint16 (putUint16 p.buf nds k.length)
        (nds + 2) v.length) (nds + 4) k) (nds + 4 + k.length) v)
      (p.count * 6) nds) (p.count * 6 + 2)
      ((2 + 2 + k.length + v.length) % 65536)) (p.count * 6 + 4) 0)
      (p.count * 6 + 4) = 0 := by
    rw [getUint16_putUint16]
  rw [h1, h2, h3]

theorem writtenPage_keyLen (p : Page) (k v : List Nat) (nds : Nat)
    (hnds : nds + (2 + 2 + k.length + v.length) =
      (if p.count = 0 then 4080 else p.dataStart))
    (hds : (if p.count = 0 then 4080 else p.dataStart) ≤ 4080)
    (hslot : 6 * p.count + 6 ≤ nds) :
    getUint16 (writtenPage p k v).buf nds = k.length := by
  simp only [writtenPage, setSlot]
  generalize hg : (if p.count = 0 then 4080 else p.dataStart) = D at hnds hds
  have hmod : (D + 65536 - (2 + 2 + k.length + v.length)) % 65536 = nds := by
    omega
  rw [hmod]
  rw [getUint16_putUint16_other _ _ _ _ (by omega),
    getUint16_putUint16_other _ _ _ _ (by omega),
    getUint16_putUint16_other _ _ _ _ (by omega),
    getUint16_writeBytes_other _ _ _ _ (by omega),
    getUint16_writeBytes_other _ _ _ _ (by omega),
    getUint16_putUint16_other _ _ _ _ (by omega),
    getUint16_putUint16]
  omega

theorem writtenPage_valLen (p : Page) (k v : List Nat) (nds : Nat)
    (hnds : nds + (2 + 2 + k.length + v.length) =
      (if p.count = 0 then 4080 else p.dataStart))
    (hds : (if p.count = 0 then 4080 else p.dataStart) ≤ 4080)
    (hslot : 6 * p.count + 6 ≤ nds) :
    getUint16 (writtenPage p k v).buf (nds + 2) = v.length := by
  simp only [writtenPage, setSlot]
  generalize hg : (if p.count = 0 then 4080 else p.dataStart) = D at hnds hds
  have hmod : (D + 65536 - (2 + 2 + k.length + v.length)) % 65536 = nds := by
    omega
  rw [hmod]
  rw [getUint16_putUint16_other _ _ _ _ (by omega),
    getUint16_putUint16_other _ _ _ _ (by omega),
    getUint16_putUint16_other _ _ _ _ (by omega),
    getUint16_writeBytes_other _ _ _ _ (by omega),
    getUint16_writeBytes_other _ _ _ _ (by omega),
    getUint16_putUint16]
  omega

theorem writtenPage_keyBytes (p : Page) (k v : List Nat) (nds : Nat)
    (hnds : nds + (2 + 2 + k.length + v.length) =
      (if p.count = 0 then 4080 else p.dataStart))
    (hds : (if p.count = 0 then 4080 else p.dataStart) ≤ 4080)
    (hslot : 6 * p.count + 6 ≤ nds) :
    readBytes (writtenPage p k v).buf (nds + 4) k.length =
      k.map (fun x => x % 256) := by
  simp only [writtenPage, setSlot]
  generalize hg : (if p.count = 0 then 4080 else p.dataStart) = D at hnds hds
  have hmod : (D + 65536 - (2 + 2 + k.length + v.length)) % 65536 = nds := by
    omega
  rw [hmod]
  have hcongr : ∀ j, nds + 4 ≤ j → j < nds + 4 + k.length →
      putUint16 (putUint16 (putUint16
        (writeBytes (writeBytes (putUint16 (putUint16 p.buf nds k.length)
          (nds + 2) v.length) (nds + 4) k) (nds + 4 + k.length) v)
        (p.count * 6) nds) (p.count * 6 + 2)
        ((2 + 2 + k.length + v.length) % 65536)) (p.count * 6 + 4) 0 j =
      writeBytes (putUint16 (putUint16 p.buf nds k.length)
        (nds + 2) v.length) (nds + 4) k j := by
    intro j hj1 hj2
    rw [putUint16_other _ _ _ _ (by omega) (by omega),
      putUint16_other _ _ _ _ (by omega) (by omega),
      putUint16_other _ _ _ _ (by omega) (by omega),
      writeBytes_other _ _ _ _ (by omega)]
  rw [readBytes_congr _ _ _ _ hcongr, readBytes_writeBytes]

theorem writtenPage_valBytes (p : Page) (k v : List Nat) (nds : Nat)
    (hnds : nds + (2 + 2 + k.length + v.length) =
      (if p.count = 0 then 4080 else p.dataStart))
    (hds : (if p.count = 0 then 4080 else p.dataStart) ≤ 4080)
    (hslot : 6 * p.count + 6 ≤ nds) :
    readBytes (writtenPage p k v).buf (nds + 4 + k.length) v.length =
      v.map (fun x => x % 256) := by
  simp only [writtenPage, setSlot]
  generalize hg : (if p.count = 0 then 4080 else p.dataStart) = D at hnds hds
  have hmod : (D + 65536 - (2 + 2 + k.length + v.length)) % 65536 = nds := by
    omega
  rw [hmod]
  have hcongr : ∀ j, nds + 4 + k.length ≤ j → j < nds + 4 + k.length + v.length →
      putUint16 (putUint16 (putUint16
        (writeBytes (writeBytes (putUint16 (putUint16 p.buf nds k.length)
          (nds + 2) v.length) (nds + 4) k) (nds + 4 + k.length) v)
        (p.count * 6) nds) (p.count * 6 + 2)
        ((2 + 2 + k.length + v.length) % 65536)) (p.count * 6 + 4) 0 j =
      writeBytes (writeBytes (putUint16 (putUint16 p.buf nds k.length)
        (nds + 2) v.length) (nds + 4) k) (nds + 4 + k.length) v j := by
    intro j hj1 hj2
    rw [putUint16_other _ _ _ _ (by omega) (by omega),
      putUint16_other _ _ _ _ (by omega) (by omega),
      putUint16_other _ _ _ _ (by omega) (by omega)]
  rw [readBytes_congr _ _ _ _ hcongr, readBytes_writeBytes]

theorem writtenPage_buf_lt (p : Page) (k v : List Nat)
    (hb : ∀ j, p.buf j < 256) (j : Nat) : (writtenPage p k v).buf j < 256 := by
  simp only [writtenPage, setSlot]
  apply putUint16_lt
  intro j'
  apply putUint16_lt
  intro j2
  apply putUint16_lt
  intro j3
  apply writeBytes_lt
  intro j4
  apply writeBytes_lt
  intro j5
  apply putUint16_lt
  intro j6
  apply putUint16_lt
  exact hb

/-!
## Record-level representation of a page

`PageRep p recs` says the page holds exactly the (key, value) records
`recs`, in slot order, all active, laid out as `WriteRecord` lays them
out.  It holds for every page obtainable from a fresh page by
successful `WriteRecord` calls (`rep_fresh`, `rep_write`), and it is
what makes `ReadRecord` compute the spec-level first-match lookup
(`rep_read`).
-/

/-- Spec-level lookup: the value of the first record in slot order
whose key is `key` ("read returns the first active match found in slot
order (index 0 upward), i.e., oldest-first"). -/
def firstMatch (recs : List (List Nat × List Nat)) (key : List Nat) :
    Option (List Nat) :=
  match recs with
  | [] => none
  | r :: rest => if r.1 = key then some r.2 else firstMatch rest key

/-- Slot `i` of `p` holds record `r`: active, its window inside the
data region above `dataStart`, and header/bytes decoding to `r`. -/
def SlotRep (p : Page) (i : Nat) (r : List Nat × List Nat) : Prop :=
  (getSlot p i).flag = 0 ∧
  p.dataStart ≤ (getSlot p i).offset ∧
  (getSlot p i).offset + (getSlot p i).len ≤ 4080 ∧
  (getSlot p i).len = 2 + 2 + r.1.length + r.2.length ∧
  getUint16 p.buf (getSlot p i).offset = r.1.length ∧
  getUint16 p.buf ((getSlot p i).offset + 2) = r.2.length ∧
  readBytes p.buf ((getSlot p i).offset + 4) r.1.length = r.1 ∧
  readBytes p.buf ((getSlot p i).offset + 4 + r.1.length) r.2.length = r.2

/-- The page `p` represents the record list `recs`. -/
def PageRep (p : Page) (recs : List (List Nat × List Nat)) : Prop :=
  p.count = recs.length ∧
  p.freeSpace ≤ 4080 ∧
  (p.count = 0 → p.freeSpace = 4080) ∧
  (p.count ≠ 0 → p.freeSpace + 6 * p.count = p.dataStart ∧ p.dataStart ≤ 4080) ∧
  (∀ j, p.buf j < 256) ∧
  ∀ i (h : i < recs.length), SlotRep p i recs[i]

theorem rep_fresh (pid : Nat) : PageRep (freshPage pid) [] := by
  refine ⟨rfl, by norm_num [freshPage], fun _ => rfl, fun h => absurd rfl h,
    fun j => by norm_num [freshPage], fun i h => absurd h (by simp)⟩

theorem writeRecord_ok_inv {p : Page} {k v : List Nat} {p' : Page}
    (h : writeRecord p k v = .ok p') :
    k.length ≤ 400 ∧ v.length ≤ 400 ∧
      2 + 2 + k.length + v.length + 6 ≤ p.freeSpace ∧
      p' = writtenPage p k v := by
  unfold writeRecord at h
  split at h
  · exact absurd h (by simp)
  · split at h
    · exact absurd h (by simp)
    · split at h
      · exact absurd h (by simp)
      · exact ⟨by omega, by omega, by omega, by injection h with h; exact h.symm⟩

theorem writeRecord_ok_of (p : Page) (k v : List Nat)
    (hk : k.length ≤ 400) (hv : v.length ≤ 400)
    (hfs : 2 + 2 + k.length + v.length + 6 ≤ p.freeSpace) :
    writeRecord p k v = .ok (writtenPage p k v) := by
  unfold writeRecord
  rw [if_neg (by omega), if_neg (by omega), if_neg (by omega)]

theorem rep_write {p : Page} {recs : List (List Nat × List Nat)}
    {k v : List Nat} {p' : Page}
    (hrep : PageRep p recs) (hw : writeRecord p k v = .ok p') :
    PageRep p'
      (recs ++ [(k.map (fun x => x % 256), v.map (fun x => x % 256))]) := by
  obtain ⟨hk, hv, hguard, hp'⟩ := writeRecord_ok_inv hw
  obtain ⟨hc, hfs, hz, hnz, hb, hslots⟩ := hrep
  subst hp'
  have huni : p.freeSpace + 6 * p.count =
      (if p.count = 0 then 4080 else p.dataStart) := by
    by_cases h0 : p.count = 0
    · rw [if_pos h0, hz h0, h0]
    · rw [if_neg h0]; exact (hnz h0).1
  have hds : (if p.count = 0 then 4080 else p.dataStart) ≤ 4080 := by
    by_cases h0 : p.count = 0
    · rw [if_pos h0]
    · rw [if_neg h0]; exact (hnz h0).2
  have hnds : ((if p.count = 0 then 4080 else p.dataStart) -
        (2 + 2 + k.length + v.length)) + (2 + 2 + k.length + v.length) =
      (if p.count = 0 then 4080 else p.dataStart) := by
    omega
  have hslot6 : 6 * p.count + 6 ≤
      (if p.count = 0 then 4080 else p.dataStart) -
        (2 + 2 + k.length + v.length) := by
    omega
  have hcount := writtenPage_count p k v (by omega)
  have hfs' := writtenPage_freeSpace p k v hguard hfs
  have hds' := writtenPage_dataStart p k v _ hnds hds
  have hframe := writtenPage_buf_frame p k v _ hnds hds hslot6
  have hslotNew := writtenPage_slot p k v _ hnds hds hslot6
  have hkeyLen := writtenPage_keyLen p k v _ hnds hds hslot6
  have hvalLen := writtenPage_valLen p k v _ hnds hds hslot6
  have hkeyBytes := writtenPage_keyBytes p k v _ hnds hds hslot6
  have hvalBytes := writtenPage_valBytes p k v _ hnds hds hslot6
  refine ⟨?_, ?_, ?_, ?_, ?_, ?_⟩
  · rw [hcount, hc]; simp
  · omega
  · intro h; omega
  · intro _
    constructor
    · rw [hcount, hfs', hds']; omega
    · rw [hds']; omega
  · exact fun j => writtenPage_buf_lt p k v hb j
  · intro i hi
    simp only [List.length_append, List.length_cons, List.length_nil] at hi
    by_cases hlt : i < recs.length
    · have hold := hslots i hlt
      have hgetEq : getSlot (writtenPage p k v) i = getSlot p i := by
        unfold getSlot getUint16
        rw [hframe _ (by omega) (by omega), hframe _ (by omega) (by omega),
          hframe _ (by omega) (by omega), hframe _ (by omega) (by omega),
          hframe _ (by omega) (by omega), hframe _ (by omega) (by omega)]
      have h0 : p.count ≠ 0 := by omega
      have hDeq : (if p.count = 0 then 4080 else p.dataStart) = p.dataStart :=
        if_neg h0
      obtain ⟨f1, f2, f3, f4, f5, f6, f7, f8⟩ := hold
      have hoff6 : 6 * p.count + 6 ≤ (getSlot p i).offset := by omega
      have hoffD : (if p.count = 0 then 4080 else p.dataStart) ≤
          (getSlot p i).offset := by omega
      have hrec : ∀ j, (getSlot p i).offset ≤ j →
          (writtenPage p k v).buf j = p.buf j := by
        intro j hj
        exact hframe _ (by omega) (by omega)
      rw [SlotRep]
      simp only [List.getElem_append_left hlt]
      rw [hgetEq]
      refine ⟨f1, ?_, f3, f4, ?_, ?_, ?_, ?_⟩
      · rw [hds']; omega
      · rw [getUint16, hrec _ (by omega), hrec _ (by omega)]; exact f5
      · rw [getUint16, hrec _ (by omega), hrec _ (by omega)]; exact f6
      · rw [readBytes_congr _ _ p.buf _ (fun j hj1 hj2 => hrec _ (by omega))]
        exact f7
      · rw [readBytes_congr _ _ p.buf _ (fun j hj1 hj2 => hrec _ (by omega))]
        exact f8
    · have hieq : i = recs.length := by omega
      subst hieq
      rw [SlotRep]
      simp only [List.getElem_concat_length]
      rw [← hc, hslotNew]
      refine ⟨rfl, ?_, ?_, ?_, ?_, ?_, ?_, ?_⟩
      · rw [hds']
      · simp only [List.length_map]; omega
      · simp only [List.length_map]
      · simp only [List.length_map]; exact hkeyLen
      · simp only [List.length_map]; exact hvalLen
      · simp only [List.length_map]; exact hkeyBytes
      · simp only [List.length_map]; exact hvalBytes

theorem readFrom_rep {p : Page} {recs : List (List Nat × List Nat)}
    (hrep : PageRep p recs) (key : List Nat) :
    ∀ n i, i + n = recs.length →
      readFrom p key i n = firstMatch (recs.drop i) key := by
  obtain ⟨hc, hfs, hz, hnz, hb, hslots⟩ := hrep
  intro n
  induction n with
  | zero =>
    intro i hi
    rw [List.drop_of_length_le (by omega)]
    rfl
  | succ n ih =>
    intro i hi
    have hilt : i < recs.length := by omega
    obtain ⟨f1, f2, f3, f4, f5, f6, f7, f8⟩ := hslots i hilt
    rw [List.drop_eq_getElem_cons hilt]
    simp only [readFrom, firstMatch, f1, ne_eq, not_true_eq_false,
      if_false, f5, f6, f7, f8]
    split
    · rfl
    · exact ih (i + 1) (by omega)

theorem rep_read {p : Page} {recs : List (List Nat × List Nat)}
    (hrep : PageRep p recs) (key : List Nat) :
    readRecord p key = firstMatch recs key := by
  have h := readFrom_rep hrep key recs.length 0 (by omega)
  rw [readRecord, hrep.1]
  simpa using h

theorem firstMatch_append_of_none {recs : List (List Nat × List Nat)}
    {key : List Nat} (h : firstMatch recs key = none) (r : List Nat × List Nat) :
    firstMatch (recs ++ [r]) key = if r.1 = key then some r.2 else none := by
  induction recs with
  | nil => rfl
  | cons x xs ih =>
    rw [firstMatch] at h
    simp only [List.cons_append, firstMatch]
    split at h
    · exact absurd h (by simp)
    · simp only [*, if_neg]
      exact ih h

/-- The pages obtainable from `start` by a (possibly empty) sequence of
successful `WriteRecord` calls. -/
inductive WriteSeq : Page → Page → Prop
  | refl (p : Page) : WriteSeq p p
  | step {p q r : Page} (k v : List Nat) (h : WriteSeq p q)
      (hw : writeRecord q k v = .ok r) : WriteSeq p r

/-- Every page reached from a fresh page by successful writes
represents some record list, keeps its page id, and keeps `dataStart`
inside the data region. -/
theorem writeSeq_rep {pid : Nat} {p : Page}
    (h : WriteSeq (freshPage pid) p) :
    (∃ recs, PageRep p recs) ∧ p.pageId = pid ∧ p.dataStart ≤ 4080 := by
  induction h with
  | refl => exact ⟨⟨[], rep_fresh pid⟩, rfl, by norm_num [freshPage]⟩
  | step k v h hw ih =>
    obtain ⟨⟨recs, hrep⟩, hpid, hds⟩ := ih
    refine ⟨⟨_, rep_write hrep hw⟩, ?_, ?_⟩
    · obtain ⟨-, -, -, hp'⟩ := writeRecord_ok_inv hw
      rw [hp', writtenPage_pageId]
      exact hpid
    · have hrep' := rep_write hrep hw
      obtain ⟨hc, hfs, hz, hnz, -, -⟩ := hrep'
      refine (hnz ?_).2
      rw [hc]
      simp

theorem map_mod_eq_self {l : List Nat} (h : ∀ b ∈ l, b < 256) :
    l.map (fun x => x % 256) = l := by
  induction l with
  | nil => rfl
  | cons x xs ih =>
    simp only [List.map_cons]
    rw [Nat.mod_eq_of_lt (h x (by simp)), ih (fun b hb => h b (by simp [hb]))]

/-- **C3.** After each successful `writeRecord` in any sequence of
successful `writeRecord` calls starting from a freshly created empty
page, `freeSpace = dataStart - recordCount * 6` holds (with no
underflow: also stated additively), `freeSpace` stays within the data
region, and the call decreased `freeSpace` by exactly
`recordSize + 6` with no unsigned wrap-around. -/
theorem c3_free_space_invariant {pid : Nat} {p : Page} (k v : List Nat)
    {q : Page} (hseq : WriteSeq (freshPage pid) p)
    (hw : writeRecord p k v = .ok q) :
    q.freeSpace = q.dataStart - 6 * q.count ∧
    q.freeSpace + 6 * q.count = q.dataStart ∧
    q.freeSpace ≤ 4080 ∧
    q.freeSpace + (2 + 2 + k.length + v.length + 6) = p.freeSpace := by
  obtain ⟨⟨recs, hrep⟩, -, -⟩ := writeSeq_rep hseq
  obtain ⟨hk, hv, hguard, hp'⟩ := writeRecord_ok_inv hw
  have hrep' := rep_write hrep hw
  obtain ⟨hc, hfs, hz, hnz, -, -⟩ := hrep'
  have hcnz : q.count ≠ 0 := by
    rw [hc]; simp
  obtain ⟨hinv, hds⟩ := hnz hcnz
  have hfseq : q.freeSpace = p.freeSpace - (2 + 2 + k.length + v.length + 6) := by
    rw [hp']
    exact writtenPage_freeSpace p k v hguard hrep.2.1
  exact ⟨by omega, hinv, hfs, by omega⟩

theorem c3_witness :
    (okPage (writeRecord (freshPage 1) [97] [98]) (freshPage 1)).freeSpace =
      (okPage (writeRecord (freshPage 1) [97] [98]) (freshPage 1)).dataStart -
        6 * (okPage (writeRecord (freshPage 1) [97] [98]) (freshPage 1)).count ∧
    (okPage (writeRecord (freshPage 1) [97] [98]) (freshPage 1)).freeSpace +
        6 * (okPage (writeRecord (freshPage 1) [97] [98]) (freshPage 1)).count =
      (okPage (writeRecord (freshPage 1) [97] [98]) (freshPage 1)).dataStart ∧
    (okPage (writeRecord (freshPage 1) [97] [98]) (freshPage 1)).freeSpace ≤ 4080 ∧
    (okPage (writeRecord (freshPage 1) [97] [98]) (freshPage 1)).freeSpace +
        (2 + 2 + ([97] : List Nat).length + ([98] : List Nat).length + 6) =
      (freshPage 1).freeSpace :=
  c3_free_space_invariant [97] [98] (WriteSeq.refl (freshPage 1)) rfl

/-- **C6.** `writeRecord` with a key or value longer than 400 bytes
fails with the corresponding error and leaves the page unchanged (in
the state-passing view the page component is the original page; in the
source all mutations happen after both guards). -/
theorem c6_oversize_rejected (p : Page) (k v : List Nat)
    (h : 400 < k.length ∨ 400 < v.length) :
    writeRecordM p k v =
      (.error (if 400 < k.length then KVError.keyTooLarge
        else KVError.valueTooLarge), p) := by
  by_cases hk : 400 < k.length
  · simp [writeRecordM, writeRecord, hk]
  · have hv : 400 < v.length := by tauto
    simp [writeRecordM, writeRecord, hk, hv]

theorem c6_witness :
    writeRecordM (freshPage 1) (List.replicate 401 97) [98] =
      (.error (if 400 < (List.replicate 401 97).length then
        KVError.keyTooLarge else KVError.valueTooLarge), freshPage 1) :=
  c6_oversize_rejected (freshPage 1) (List.replicate 401 97) [98]
    (Or.inl (by simp only [List.length_replicate]; omega))

/-- The bytes of `"hello"`. -/
def helloBytes : List Nat := [104, 101, 108, 108, 111]

/-- The bytes of `"world"`. -/
def worldBytes : List Nat := [119, 111, 114, 108, 100]

/-- The fresh page after `writeRecord("a", "hello")`. -/
def pageA : Page := okPage (writeRecord (freshPage 1) [97] helloBytes) (freshPage 1)

/-- `pageA` after `writeRecord("b", "world")`. -/
def pageAB : Page := okPage (writeRecord pageA [98] worldBytes) pageA

/-- **C8.** On a fresh empty page, after `writeRecord("a","hello")`
then `writeRecord("b","world")`: both writes succeed, `recordCount = 2`,
slot 0's offset (4070) is strictly greater than slot 1's offset (4060) —
records are packed from the high end of the buffer downward —
`readRecord("a")` returns `("hello", true)`, and `readRecord("c")`
returns found = false. -/
theorem c8_two_records_scenario :
    isOkE (writeRecord (freshPage 1) [97] helloBytes) = true ∧
    isOkE (writeRecord pageA [98] worldBytes) = true ∧
    pageAB.count = 2 ∧
    (getSlot pageAB 1).offset < (getSlot pageAB 0).offset ∧
    (getSlot pageAB 0).offset = 4070 ∧
    (getSlot pageAB 1).offset = 4060 ∧
    readRecord pageAB [97] = some helloBytes ∧
    readRecord pageAB [99] = none := by decide

/-- A page satisfying the claimed free-space invariant with
`recordCount = 0` but `dataStart = 100`: the write resets `dataStart`
to the top of the region and stores the record there, overwriting byte
4079 — which lies above the old `dataStart`. -/
def pC9 : Page :=
  { pageId := 1, count := 0, freeSpace := 100, dataStart := 100
    buf := fun i => if i = 4079 then 7 else 0 }

/-- **C9 counterexample.** `pC9` satisfies
`freeSpace = dataStart - recordCount * 6`; `writeRecord("a","")`
succeeds on it, yet buffer position 4079 — which is `≥` the old
`dataStart = 100`, hence inside the region the claim says is
byte-for-byte unchanged — changes from 7 to 97. -/
theorem c9_counterexample :
    pC9.freeSpace + 6 * pC9.count = pC9.dataStart ∧
    pC9.freeSpace = pC9.dataStart - 6 * pC9.count ∧
    isOkE (writeRecord pC9 [97] []) = true ∧
    pC9.dataStart ≤ 4079 ∧
    pC9.buf 4079 = 7 ∧
    (okPage (writeRecord pC9 [97] []) pC9).buf 4079 = 97 := by decide

/-- **C9 (amended).** For every page with `recordCount > 0` satisfying
the free-space invariant (and `dataStart` within the data region), a
successful `writeRecord` leaves every previously stored slot entry
unchanged, leaves every buffer byte from the old `dataStart` upward
unchanged, and writes only the new slot's 6-byte window and the bytes
in `[newDataStart, old dataStart)`.  (When `recordCount = 0` the source
resets `dataStart` to 4080 first, so the written record window is
`[4080 - recordSize, 4080)` instead — the original claim fails there,
see the counterexample.) -/
theorem c9_amended_frame (p : Page) (k v : List Nat) (p' : Page)
    (hinv : p.freeSpace + 6 * p.count = p.dataStart)
    (hds : p.dataStart ≤ 4080)
    (hcnt : 0 < p.count)
    (hw : writeRecord p k v = .ok p') :
    p'.dataStart = p.dataStart - (2 + 2 + k.length + v.length) ∧
    (∀ i, i < p.count → getSlot p' i = getSlot p i) ∧
    (∀ i, p.dataStart ≤ i → p'.buf i = p.buf i) ∧
    (∀ i, (i < 6 * p.count ∨ 6 * p.count + 6 ≤ i) →
      (i < p.dataStart - (2 + 2 + k.length + v.length) ∨ p.dataStart ≤ i) →
      p'.buf i = p.buf i) := by
  obtain ⟨hk, hv, hguard, hp'⟩ := writeRecord_ok_inv hw
  subst hp'
  have h0 : p.count ≠ 0 := by omega
  have hif : (if p.count = 0 then 4080 else p.dataStart) = p.dataStart :=
    if_neg h0
  have hnds : (p.dataStart - (2 + 2 + k.length + v.length)) +
      (2 + 2 + k.length + v.length) =
      (if p.count = 0 then 4080 else p.dataStart) := by
    omega
  have hds' : (if p.count = 0 then 4080 else p.dataStart) ≤ 4080 := by
    omega
  have hslot6 : 6 * p.count + 6 ≤
      p.dataStart - (2 + 2 + k.length + v.length) := by
    omega
  have hframe := writtenPage_buf_frame p k v _ hnds hds' hslot6
  refine ⟨writtenPage_dataStart p k v _ hnds hds', ?_, ?_, ?_⟩
  · intro i hi
    unfold getSlot getUint16
    rw [hframe _ (by omega) (by omega), hframe _ (by omega) (by omega),
      hframe _ (by omega) (by omega), hframe _ (by omega) (by omega),
      hframe _ (by omega) (by omega), hframe _ (by omega) (by omega)]
  · intro i hi
    exact hframe _ (by omega) (by omega)
  · intro i hi1 hi2
    exact hframe _ (by omega) (by omega)

/-- A concrete one-record page for exercising `c9_amended_frame`. -/
def pC9w : Page := okPage (writeRecord (freshPage 1) [97] [98]) (freshPage 1)

theorem c9_witness :
    (okPage (writeRecord pC9w [99] [100]) pC9w).dataStart =
      pC9w.dataStart - (2 + 2 + ([99] : List Nat).length +
        ([100] : List Nat).length) ∧
    (∀ i, i < pC9w.count →
      getSlot (okPage (writeRecord pC9w [99] [100]) pC9w) i = getSlot pC9w i) ∧
    (∀ i, pC9w.dataStart ≤ i →
      (okPage (writeRecord pC9w [99] [100]) pC9w).buf i = pC9w.buf i) ∧
    (∀ i, (i < 6 * pC9w.count ∨ 6 * pC9w.count + 6 ≤ i) →
      (i < pC9w.dataStart - (2 + 2 + ([99] : List Nat).length +
        ([100] : List Nat).length) ∨ pC9w.dataStart ≤ i) →
      (okPage (writeRecord pC9w [99] [100]) pC9w).buf i = pC9w.buf i) :=
  c9_amended_frame pC9w [99] [100] (okPage (writeRecord pC9w [99] [100]) pC9w)
    (by decide) (by decide) (by decide) rfl

/-- The fresh page after `writeRecord("a","x")` (value byte 120). -/
def pDup1 : Page := okPage (writeRecord (freshPage 1) [97] [120]) (freshPage 1)

/-- `pDup1` after `writeRecord("a","y")` (value byte 121). -/
def pDup2 : Page := okPage (writeRecord pDup1 [97] [121]) pDup1

/-- **C4 counterexample.** The key `"a"` and values `"x"`, `"y"` are all
within the 1..400-byte limits and the second `writeRecord("a","y")` on
`pDup1` succeeds, yet `readRecord("a")` on the resulting page returns
the first-inserted `"x"`, not the just-written `"y"`: on a page that
already holds the key, write-then-read does not return the written
value. -/
theorem c4_counterexample :
    1 ≤ ([97] : List Nat).length ∧ ([97] : List Nat).length ≤ 400 ∧
    1 ≤ ([121] : List Nat).length ∧ ([121] : List Nat).length ≤ 400 ∧
    isOkE (writeRecord pDup1 [97] [121]) = true ∧
    readRecord pDup2 [97] = some [120] ∧
    ¬ readRecord pDup2 [97] = some [121] := by decide

/-- **C4 (amended).** For keys and values of 1..400 bytes (of byte
values < 256, the image of Go byte strings), on any page representing a
record list (every page reachable by successful `writeRecord` calls is
such a page, `rep_fresh`/`rep_write`) *that does not already contain an
active record with the same key*, a successful `writeRecord(key,
value)` followed by `readRecord(key)` returns the written value. -/
theorem c4_write_then_read {p : Page} {recs : List (List Nat × List Nat)}
    (k v : List Nat) {p' : Page}
    (hrep : PageRep p recs)
    (_hk1 : 1 ≤ k.length) (_hk2 : k.length ≤ 400)
    (_hv1 : 1 ≤ v.length) (_hv2 : v.length ≤ 400)
    (hkb : ∀ b ∈ k, b < 256) (hvb : ∀ b ∈ v, b < 256)
    (hnone : readRecord p k = none)
    (hw : writeRecord p k v = .ok p') :
    readRecord p' k = some v := by
  have hrep' := rep_write hrep hw
  rw [map_mod_eq_self hkb, map_mod_eq_self hvb] at hrep'
  rw [rep_read hrep' k, firstMatch_append_of_none]
  · simp
  · rw [← rep_read hrep k]
    exact hnone

theorem c4_witness :
    readRecord (okPage (writeRecord (freshPage 1) [97] [98]) (freshPage 1))
      [97] = some [98] :=
  c4_write_then_read [97] [98] (rep_fresh 1) (by decide) (by decide)
    (by decide) (by decide) (by decide) (by decide) (by decide) rfl

/-- The fresh page after `writeRecord("","x")` (empty key). -/
def pEmp1 : Page := okPage (writeRecord (freshPage 1) [] [120]) (freshPage 1)

/-- `pEmp1` after `writeRecord("","y")` (empty key again). -/
def pEmp2 : Page := okPage (writeRecord pEmp1 [] [121]) pEmp1

/-- **C10 counterexample.** On a page with ample space that already
holds a record under the empty key, `writeRecord("", "y")` succeeds,
but the subsequent `readRecord("")` returns the earlier record's value
`"x"`, not the stored `"y"` — so the claim's read-back clause fails on
such a page. -/
theorem c10_counterexample :
    2 + 2 + ([] : List Nat).length + ([121] : List Nat).length + 6 ≤
      pEmp1.freeSpace ∧
    isOkE (writeRecord pEmp1 [] [121]) = true ∧
    readRecord pEmp2 [] = some [120] ∧
    ¬ readRecord pEmp2 [] = some [121] := by decide

/-- **C10 (amended).** `writeRecord` imposes no lower bound on key or
value length: with a zero-length key and/or zero-length value (and the
other component within limits), `writeRecord` succeeds on any
represented page with sufficient space, stores a record whose header
records length 0 for the empty component, and — provided the page does
not already hold an active record with the same key — a subsequent
`readRecord` with that key returns the stored value. -/
theorem c10_empty_key_value {p : Page} {recs : List (List Nat × List Nat)}
    (k v : List Nat)
    (hrep : PageRep p recs)
    (_h0 : k.length = 0 ∨ v.length = 0)
    (hk2 : k.length ≤ 400) (hv2 : v.length ≤ 400)
    (hkb : ∀ b ∈ k, b < 256) (hvb : ∀ b ∈ v, b < 256)
    (hspace : 2 + 2 + k.length + v.length + 6 ≤ p.freeSpace)
    (hnone : readRecord p k = none) :
    writeRecord p k v = .ok (writtenPage p k v) ∧
    getUint16 (writtenPage p k v).buf ((writtenPage p k v).dataStart) =
      k.length ∧
    getUint16 (writtenPage p k v).buf ((writtenPage p k v).dataStart + 2) =
      v.length ∧
    readRecord (writtenPage p k v) k = some v := by
  have hw := writeRecord_ok_of p k v hk2 hv2 hspace
  obtain ⟨hc, hfs, hz, hnz, hb, hslots⟩ := hrep
  have huni : p.freeSpace + 6 * p.count =
      (if p.count = 0 then 4080 else p.dataStart) := by
    by_cases hc0 : p.count = 0
    · rw [if_pos hc0, hz hc0, hc0]
    · rw [if_neg hc0]; exact (hnz hc0).1
  have hds : (if p.count = 0 then 4080 else p.dataStart) ≤ 4080 := by
    by_cases hc0 : p.count = 0
    · rw [if_pos hc0]
    · rw [if_neg hc0]; exact (hnz hc0).2
  have hnds : ((if p.count = 0 then 4080 else p.dataStart) -
        (2 + 2 + k.length + v.length)) + (2 + 2 + k.length + v.length) =
      (if p.count = 0 then 4080 else p.dataStart) := by
    omega
  have hslot6 : 6 * p.count + 6 ≤
      (if p.count = 0 then 4080 else p.dataStart) -
        (2 + 2 + k.length + v.length) := by
    omega
  have hdseq := writtenPage_dataStart p k v _ hnds hds
  refine ⟨hw, ?_, ?_, ?_⟩
  · rw [hdseq]
    exact writtenPage_keyLen p k v _ hnds hds hslot6
  · rw [hdseq]
    exact writtenPage_valLen p k v _ hnds hds hslot6
  · have hrep' := rep_write ⟨hc, hfs, hz, hnz, hb, hslots⟩ hw
    rw [map_mod_eq_self hkb, map_mod_eq_self hvb] at hrep'
    rw [rep_read hrep' k, firstMatch_append_of_none]
    · simp
    · rw [← rep_read ⟨hc, hfs, hz, hnz, hb, hslots⟩ k]
      exact hnone

theorem c10_witness :
    writeRecord (freshPage 1) [] [120] =
      .ok (writtenPage (freshPage 1) [] [120]) ∧
    getUint16 (writtenPage (freshPage 1) [] [120]).buf
      ((writtenPage (freshPage 1) [] [120]).dataStart) =
      ([] : List Nat).length ∧
    getUint16 (writtenPage (freshPage 1) [] [120]).buf
      ((writtenPage (freshPage 1) [] [120]).dataStart + 2) =
      ([120] : List Nat).length ∧
    readRecord (writtenPage (freshPage 1) [] [120]) [] = some [120] :=
  c10_empty_key_value [] [120] (rep_fresh 1) (Or.inl rfl) (by decide)
    (by decide) (by decide) (by decide) (by decide) (by decide)

/-- Manager metadata for a two-page store. -/
def pmC7 : PageManager :=
  { meta := { nextPageId := 3, pageCount := 2, lastPageId := 2 } }

/-- A disk holding page 1 with record `("k","1")` (bytes 107/49) and
page 2 with record `("k","2")` (bytes 107/50), both active, laid out
exactly as `WriteRecord` lays records out. -/
def dC7 : DiskModel :=
  { data := fun o =>
      if o = 4096 then 1 else if o = 4104 then 1
      else if o = 4108 then 228 else if o = 4109 then 15
      else if o = 4110 then 234 else if o = 4111 then 15
      else if o = 4112 then 234 else if o = 4113 then 15
      else if o = 4114 then 6
      else if o = 8186 then 1 else if o = 8188 then 1
      else if o = 8190 then 107 else if o = 8191 then 49
      else if o = 8192 then 2 else if o = 8200 then 1
      else if o = 8204 then 228 else if o = 8205 then 15
      else if o = 8206 then 234 else if o = 8207 then 15
      else if o = 8208 then 234 else if o = 8209 then 15
      else if o = 8210 then 6
      else if o = 12282 then 1 else if o = 12284 then 1
      else if o = 12286 then 107 else if o = 12287 then 50
      else 0
    failRead := fun _ => false
    failWrite := fun _ => false }

/-- **C7.** Inserting the same key twice creates two records rather
than overwriting (both writes succeed and `recordCount = 2`), and
lookup returns the value of the first active matching slot in scan
order: `readRecord` on the page returns the earliest-inserted value and
not the most recent; likewise `findRecord` over the two-page disk `dC7`
(page 1 holding the older record, page 2 the newer one under the same
key) returns the value stored in page 1. -/
theorem c7_duplicate_keys_oldest_first :
    (∀ k v1 v2 : List Nat,
      k.length ≤ 400 → v1.length ≤ 400 → v2.length ≤ 400 →
      (∀ b ∈ k, b < 256) → (∀ b ∈ v1, b < 256) → (∀ b ∈ v2, b < 256) →
      (2 + 2 + k.length + v1.length + 6) +
        (2 + 2 + k.length + v2.length + 6) ≤ 4080 →
      v1 ≠ v2 →
      writeRecord (freshPage 1) k v1 = .ok (writtenPage (freshPage 1) k v1) ∧
      writeRecord (writtenPage (freshPage 1) k v1) k v2 =
        .ok (writtenPage (writtenPage (freshPage 1) k v1) k v2) ∧
      (writtenPage (writtenPage (freshPage 1) k v1) k v2).count = 2 ∧
      readRecord (writtenPage (writtenPage (freshPage 1) k v1) k v2) k =
        some v1 ∧
      ¬ readRecord (writtenPage (writtenPage (freshPage 1) k v1) k v2) k =
        some v2) ∧
    readRecord (okPage (loadPage dC7 1) (freshPage 0)) [107] = some [49] ∧
    readRecord (okPage (loadPage dC7 2) (freshPage 0)) [107] = some [50] ∧
    findRecord pmC7 dC7 [107] = .ok [49] := by
  refine ⟨?_, by decide, by decide, by decide⟩
  intro k v1 v2 hk hv1 hv2 hkb hv1b hv2b hsize hne
  have hw1 : writeRecord (freshPage 1) k v1 =
      .ok (writtenPage (freshPage 1) k v1) :=
    writeRecord_ok_of _ k v1 hk hv1 (by norm_num [freshPage]; omega)
  have hrep1 := rep_write (rep_fresh 1) hw1
  rw [map_mod_eq_self hkb, map_mod_eq_self hv1b] at hrep1
  have hfs1 : (writtenPage (freshPage 1) k v1).freeSpace =
      4080 - (2 + 2 + k.length + v1.length + 6) := by
    have := writtenPage_freeSpace (freshPage 1) k v1
      (by norm_num [freshPage]; omega) (by norm_num [freshPage])
    simpa [freshPage] using this
  have hw2 : writeRecord (writtenPage (freshPage 1) k v1) k v2 =
      .ok (writtenPage (writtenPage (freshPage 1) k v1) k v2) :=
    writeRecord_ok_of _ k v2 hk hv2 (by rw [hfs1]; omega)
  have hrep2 := rep_write hrep1 hw2
  rw [map_mod_eq_self hkb, map_mod_eq_self hv2b] at hrep2
  have hread : readRecord (writtenPage (writtenPage (freshPage 1) k v1) k v2)
      k = some v1 := by
    rw [rep_read hrep2 k]
    simp [firstMatch]
  refine ⟨hw1, hw2, hrep2.1, hread, ?_⟩
  rw [hread]
  simp [hne]

theorem c7_witness :
    writeRecord (freshPage 1) [107] [49] =
      .ok (writtenPage (freshPage 1) [107] [49]) ∧
    writeRecord (writtenPage (freshPage 1) [107] [49]) [107] [50] =
      .ok (writtenPage (writtenPage (freshPage 1) [107] [49]) [107] [50]) ∧
    (writtenPage (writtenPage (freshPage 1) [107] [49]) [107] [50]).count =
      2 ∧
    readRecord (writtenPage (writtenPage (freshPage 1) [107] [49]) [107] [50])
      [107] = some [49] ∧
    ¬ readRecord (writtenPage (writtenPage (freshPage 1) [107] [49]) [107]
      [50]) [107] = some [50] :=
  c7_duplicate_keys_oldest_first.1 [107] [49] [50] (by decide) (by decide)
    (by decide) (by decide) (by decide) (by decide) (by decide) (by decide)

theorem insertTail_fst (pm : PageManager) (d : DiskModel) (page : Page)
    (k v : List Nat) :
    (insertTail pm d page k v).1 =
      match writeRecord page k v with
      | .error e => .error e
      | .ok p2 => if d.failWrite (p2.pageId * 4096) then
          Except.error KVError.writeFailure else Except.ok () := by
  unfold insertTail writePageToDisk diskWrite
  cases writeRecord page k v with
  | error e => rfl
  | ok p2 =>
    cases hB : d.failWrite (p2.pageId * 4096) <;> simp [hB]

theorem c1_amended_error_propagation (pm : PageManager) (d : DiskModel)
    (k v : List Nat) :
    (insertRecord pm d k v).1 =
      match findPageWithSpace pm d (2 + 2 + k.length + v.length) with
      | .ok page =>
        match writeRecord page k v with
        | .error e => .error e
        | .ok p2 => if d.failWrite (p2.pageId * 4096) then
            Except.error KVError.writeFailure else Except.ok ()
      | .error _ =>
        if d.failWrite ((createPage pm).1.pageId * 4096) then
          Except.error KVError.writeFailure
        else
          match writeRecord (createPage pm).1 k v with
          | .error e => .error e
          | .ok p2 => if d.failWrite (p2.pageId * 4096) then
              Except.error KVError.writeFailure else Except.ok () := by
  have hzeta : insertRecord pm d k v =
      match findPageWithSpace pm d (2 + 2 + k.length + v.length) with
      | .ok page => insertTail pm d page k v
      | .error _ =>
        match writePageToDisk d (createPage pm).1 with
        | .error e => (.error e, (createPage pm).2, d)
        | .ok d2 =>
          match saveMetaDataPage (createPage pm).2 d2 with
          | .error _ => insertTail (createPage pm).2 d2 (createPage pm).1 k v
          | .ok d3 => insertTail (createPage pm).2 d3 (createPage pm).1 k v :=
    rfl
  rw [hzeta]
  cases hF : findPageWithSpace pm d (2 + 2 + k.length + v.length) with
  | ok page => exact insertTail_fst pm d page k v
  | error e =>
    unfold writePageToDisk diskWrite saveMetaDataPage
    cases hB : d.failWrite ((createPage pm).1.pageId * 4096) with
    | true => rfl
    | false =>
      simp only [Bool.false_eq_true, if_false, diskWrite]
      cases hB0 : d.failWrite 0 with
      | true =>
        simp only [hB0, if_true, insertTail_fst]
      | false =>
        simp only [hB0, Bool.false_eq_true, if_false, insertTail_fst]

/-- Manager state with no data pages yet (`LastPageId = 0`). -/
def pmC1 : PageManager :=
  { meta := { nextPageId := 1, pageCount := 0, lastPageId := 0 } }

/-- A disk on which every read succeeds and every write succeeds except
the one at offset 0 — i.e. exactly the metadata-page write fails. -/
def dC1 : DiskModel :=
  { data := fun _ => 0
    failRead := fun _ => false
    failWrite := fun o => o == 0 }

/-- The disk state after `insertRecord` has persisted the freshly
created empty page 1 — the state on which the source then calls
`pm.SaveMetaDataPage()`. -/
def dC1Mid : DiskModel := okDisk (writePageToDisk dC1 (createPage pmC1).1) dC1

/-- **C1 counterexample.** On `dC1` the insert path creates page 1 and
persists it successfully; the `SaveMetaDataPage` call it then performs
fails (its write at offset 0 fails); yet `insertRecord` returns
success, because the source line `pm.SaveMetaDataPage()` discards the
returned error.  So an I/O failure at the persist-updated-metadata
step neither aborts `insertRecord` nor surfaces the error to the
caller, and `insertRecord` returns success although a persistence step
it performed failed. -/
theorem c1_counterexample :
    isOkE (writePageToDisk dC1 (createPage pmC1).1) = true ∧
    isOkE (saveMetaDataPage (createPage pmC1).2 dC1Mid) = false ∧
    (insertRecord pmC1 dC1 [97] [98]).1 = .ok () := by decide

theorem writeRecord_insufficient (p : Page) (k v : List Nat)
    (hk : k.length ≤ 400) (hv : v.length ≤ 400)
    (h : p.freeSpace < 2 + 2 + k.length + v.length + 6) :
    writeRecord p k v = .error .insufficientSpace := by
  unfold writeRecord
  rw [if_neg (by omega), if_neg (by omega), if_pos h]

/-- The free space of the page returned by a placement search, when it
found one. -/
def freeSpaceOf (e : Except KVError Page) : Option Nat :=
  match e with
  | .ok p => some p.freeSpace
  | .error _ => none

/-- **C2 (amended).** When the placement search selects a page whose
`freeSpace` admits the record (`hasSpace` checks
`freeSpace ≥ recordSize` only) but not the additional 6-byte slot entry
that `WriteRecord` also requires, `insertRecord` returns the per-page
`InsufficientSpace` error directly to the caller — it does not try
another page and does not allocate a fresh one. -/
theorem c2_amended_insufficient_space_surfaces (pm : PageManager)
    (d : DiskModel) (k v : List Nat) (f : Nat)
    (hk : k.length ≤ 400) (hv : v.length ≤ 400)
    (hfind : freeSpaceOf (findPageWithSpace pm d
      (2 + 2 + k.length + v.length)) = some f)
    (hlt : f < 2 + 2 + k.length + v.length + 6) :
    (insertRecord pm d k v).1 = .error .insufficientSpace := by
  have hzeta : insertRecord pm d k v =
      match findPageWithSpace pm d (2 + 2 + k.length + v.length) with
      | .ok page => insertTail pm d page k v
      | .error _ =>
        match writePageToDisk d (createPage pm).1 with
        | .error e => (.error e, (createPage pm).2, d)
        | .ok d2 =>
          match saveMetaDataPage (createPage pm).2 d2 with
          | .error _ => insertTail (createPage pm).2 d2 (createPage pm).1 k v
          | .ok d3 => insertTail (createPage pm).2 d3 (createPage pm).1 k v :=
    rfl
  rw [hzeta]
  cases hF : findPageWithSpace pm d (2 + 2 + k.length + v.length) with
  | error e =>
    rw [hF] at hfind
    exact absurd hfind (by simp [freeSpaceOf])
  | ok page =>
    rw [hF] at hfind
    have hpf : page.freeSpace = f := by
      simpa [freeSpaceOf] using hfind
    rw [insertTail_fst, writeRecord_insufficient page k v hk hv (by omega)]

/-- A manager whose store has one data page (`LastPageId = 1`). -/
def pmC2 : PageManager :=
  { meta := { nextPageId := 2, pageCount := 1, lastPageId := 1 } }

/-- A fault-free disk whose page 1 decodes to a page with
`recordCount = 1`, `freeSpace = 8`, `dataStart = 14` (a consistent
header: `8 = 14 - 1*6`). -/
def dC2 : DiskModel :=
  { data := fun o =>
      if o = 4096 then 1 else if o = 4104 then 1
      else if o = 4108 then 8 else if o = 4110 then 14 else 0
    failRead := fun _ => false
    failWrite := fun _ => false }

/-- **C2 counterexample.** Key `"a"` (1 byte) and the empty value are
within the 400-byte limits; `recordSize = 5`.  Page 1 has
`freeSpace = 8`, so the placement search accepts it (`8 ≥ 5`) but
`WriteRecord` needs `5 + 6 = 11` bytes and fails — and `insertRecord`
surfaces `InsufficientSpace` to the caller even though the disk is
fault-free, so a fresh page could have been created and written. -/
theorem c2_counterexample :
    ([97] : List Nat).length ≤ 400 ∧ ([] : List Nat).length ≤ 400 ∧
    hasSpace (okPage (loadPage dC2 1) (freshPage 0))
      (2 + 2 + ([97] : List Nat).length + ([] : List Nat).length) = true ∧
    (insertRecord pmC2 dC2 [97] []).1 = .error .insufficientSpace ∧
    isOkE (writePageToDisk dC2 (createPage pmC2).1) = true ∧
    isOkE (saveMetaDataPage (createPage pmC2).2 dC2) = true := by decide

theorem c2_witness :
    (insertRecord pmC2 dC2 [97] []).1 = .error .insufficientSpace :=
  c2_amended_insufficient_space_surfaces pmC2 dC2 [97] [] 8 (by decide)
    (by decide) (by decide) (by decide)

/-! ## Little-endian codec round-trip lemmas -/

theorem putUint32_other (b : Buf) (pos v j : Nat)
    (h : j < pos ∨ pos + 4 ≤ j) : putUint32 b pos v j = b j := by
  unfold putUint32
  rw [setByte_other _ _ _ _ (by omega), setByte_other _ _ _ _ (by omega),
    setByte_other _ _ _ _ (by omega), setByte_other _ _ _ _ (by omega)]

theorem putUint64_other (b : Buf) (pos v j : Nat)
    (h : j < pos ∨ pos + 8 ≤ j) : putUint64 b pos v j = b j := by
  unfold putUint64
  rw [setByte_other _ _ _ _ (by omega), setByte_other _ _ _ _ (by omega),
    setByte_other _ _ _ _ (by omega), setByte_other _ _ _ _ (by omega),
    setByte_other _ _ _ _ (by omega), setByte_other _ _ _ _ (by omega),
    setByte_other _ _ _ _ (by omega), setByte_other _ _ _ _ (by omega)]

theorem getUint16_congr (b1 b2 : Buf) (pos : Nat)
    (h : ∀ j, pos ≤ j → j < pos + 2 → b1 j = b2 j) :
    getUint16 b1 pos = getUint16 b2 pos := by
  unfold getUint16
  rw [h _ (by omega) (by omega), h _ (by omega) (by omega)]

theorem getUint32_congr (b1 b2 : Buf) (pos : Nat)
    (h : ∀ j, pos ≤ j → j < pos + 4 → b1 j = b2 j) :
    getUint32 b1 pos = getUint32 b2 pos := by
  unfold getUint32
  rw [h _ (by omega) (by omega), h _ (by omega) (by omega),
    h _ (by omega) (by omega), h _ (by omega) (by omega)]

theorem getUint64_congr (b1 b2 : Buf) (pos : Nat)
    (h : ∀ j, pos ≤ j → j < pos + 8 → b1 j = b2 j) :
    getUint64 b1 pos = getUint64 b2 pos := by
  unfold getUint64
  rw [h _ (by omega) (by omega), h _ (by omega) (by omega),
    h _ (by omega) (by omega), h _ (by omega) (by omega),
    h _ (by omega) (by omega), h _ (by omega) (by omega),
    h _ (by omega) (by omega), h _ (by omega) (by omega)]

theorem getUint32_putUint32 (b : Buf) (pos v : Nat) :
    getUint32 (putUint32 b pos v) pos = v % 4294967296 := by
  have h0 : putUint32 b pos v pos = v % 256 := by
    unfold putUint32
    rw [setByte_other _ _ _ _ (by omega), setByte_other _ _ _ _ (by omega),
      setByte_other _ _ _ _ (by omega)]
    exact setByte_self _ _ _
  have h1 : putUint32 b pos v (pos + 1) = v / 256 % 256 := by
    unfold putUint32
    rw [setByte_other _ _ _ _ (by omega), setByte_other _ _ _ _ (by omega)]
    exact setByte_self _ _ _
  have h2 : putUint32 b pos v (pos + 2) = v / 65536 % 256 := by
    unfold putUint32
    rw [setByte_other _ _ _ _ (by omega)]
    exact setByte_self _ _ _
  have h3 : putUint32 b pos v (pos + 3) = v / 16777216 % 256 :=
    setByte_self _ _ _
  unfold getUint32
  rw [h0, h1, h2, h3]
  omega

theorem getUint64_putUint64 (b : Buf) (pos v : Nat) :
    getUint64 (putUint64 b pos v) pos = v % 18446744073709551616 := by
  have h0 : putUint64 b pos v pos = v % 256 := by
    unfold putUint64
    rw [setByte_other _ _ _ _ (by omega), setByte_other _ _ _ _ (by omega),
      setByte_other _ _ _ _ (by omega), setByte_other _ _ _ _ (by omega),
      setByte_other _ _ _ _ (by omega), setByte_other _ _ _ _ (by omega),
      setByte_other _ _ _ _ (by omega)]
    exact setByte_self _ _ _
  have h1 : putUint64 b pos v (pos + 1) = v / 256 % 256 := by
    unfold putUint64
    rw [setByte_other _ _ _ _ (by omega), setByte_other _ _ _ _ (by omega),
      setByte_other _ _ _ _ (by omega), setByte_other _ _ _ _ (by omega),
      setByte_other _ _ _ _ (by omega), setByte_other _ _ _ _ (by omega)]
    exact setByte_self _ _ _
  have h2 : putUint64 b pos v (pos + 2) = v / 65536 % 256 := by
    unfold putUint64
    rw [setByte_other _ _ _ _ (by omega), setByte_other _ _ _ _ (by omega),
      setByte_other _ _ _ _ (by omega), setByte_other _ _ _ _ (by omega),
      setByte_other _ _ _ _ (by omega)]
    exact setByte_self _ _ _
  have h3 : putUint64 b pos v (pos + 3) = v / 16777216 % 256 := by
    unfold putUint64
    rw [setByte_other _ _ _ _ (by omega), setByte_other _ _ _ _ (by omega),
      setByte_other _ _ _ _ (by omega), setByte_other _ _ _ _ (by omega)]
    exact setByte_self _ _ _
  have h4 : putUint64 b pos v (pos + 4) = v / 4294967296 % 256 := by
    unfold putUint64
    rw [setByte_other _ _ _ _ (by omega), setByte_other _ _ _ _ (by omega),
      setByte_other _ _ _ _ (by omega)]
    exact setByte_self _ _ _
  have h5 : putUint64 b pos v (pos + 5) = v / 1099511627776 % 256 := by
    unfold putUint64
    rw [setByte_other _ _ _ _ (by omega), setByte_other _ _ _ _ (by omega)]
    exact setByte_self _ _ _
  have h6 : putUint64 b pos v (pos + 6) = v / 281474976710656 % 256 := by
    unfold putUint64
    rw [setByte_other _ _ _ _ (by omega)]
    exact setByte_self _ _ _
  have h7 : putUint64 b pos v (pos + 7) = v / 72057594037927936 % 256 :=
    setByte_self _ _ _
  unfold getUint64
  rw [h0, h1, h2, h3, h4, h5, h6, h7]
  omega

theorem encodePage_pageId (p : Page) :
    getUint64 (encodePage p) 0 = p.pageId % 18446744073709551616 := by
  rw [getUint64_congr (encodePage p)
    (putUint64 (fun _ => 0) 0 p.pageId) 0 ?hcg]
  case hcg =>
    intro j hj1 hj2
    simp only [encodePage]
    rw [if_pos (by omega), putUint16_other _ _ _ _ (by omega) (by omega),
      putUint16_other _ _ _ _ (by omega) (by omega),
      putUint32_other _ _ _ _ (by omega)]
  exact getUint64_putUint64 _ _ _

theorem encodePage_count (p : Page) :
    getUint32 (encodePage p) 8 = p.count % 4294967296 := by
  rw [getUint32_congr (encodePage p)
    (putUint32 (putUint64 (fun _ => 0) 0 p.pageId) 8 p.count) 8 ?hcg]
  case hcg =>
    intro j hj1 hj2
    simp only [encodePage]
    rw [if_pos (by omega), putUint16_other _ _ _ _ (by omega) (by omega),
      putUint16_other _ _ _ _ (by omega) (by omega)]
  exact getUint32_putUint32 _ _ _

theorem encodePage_freeSpace (p : Page) :
    getUint16 (encodePage p) 12 = p.freeSpace % 65536 := by
  rw [getUint16_congr (encodePage p)
    (putUint16 (putUint32 (putUint64 (fun _ => 0) 0 p.pageId) 8 p.count)
      12 p.freeSpace) 12 ?hcg]
  case hcg =>
    intro j hj1 hj2
    simp only [encodePage]
    rw [if_pos (by omega), putUint16_other _ _ _ _ (by omega) (by omega)]
  exact getUint16_putUint16 _ _ _

theorem encodePage_dataStart (p : Page) :
    getUint16 (encodePage p) 14 = p.dataStart % 65536 := by
  rw [getUint16_congr (encodePage p)
    (putUint16 (putUint16 (putUint32 (putUint64 (fun _ => 0) 0 p.pageId)
      8 p.count) 12 p.freeSpace) 14 p.dataStart) 14 ?hcg]
  case hcg =>
    intro j hj1 hj2
    simp only [encodePage]
    rw [if_pos (by omega)]
  exact getUint16_putUint16 _ _ _

theorem encodePage_buf (p : Page) (i : Nat) (h : 16 ≤ i) :
    encodePage p i = p.buf (i - 16) := by
  simp only [encodePage]
  rw [if_neg (by omega)]

/-- The disk after a successful `writePageToDisk d page`: the 4096-byte
window at `PageId * PageSize` now holds the page image. -/
def writtenDisk (d : DiskModel) (page : Page) : DiskModel :=
  { d with
    data := fun i =>
      if page.pageId * 4096 ≤ i ∧ i < page.pageId * 4096 + 4096 then
        encodePage page (i - page.pageId * 4096)
      else d.data i }

theorem writePageToDisk_ok (d : DiskModel) (page : Page)
    (hfw : d.failWrite (page.pageId * 4096) = false) :
    writePageToDisk d page = .ok (writtenDisk d page) := by
  unfold writePageToDisk diskWrite writtenDisk
  rw [hfw]
  rfl

/-- **C5.** For every page produced purely through size-limit-
respecting `writeRecord` calls (from a fresh page with a valid id),
encoding the page to its 4096-byte on-disk image with
`writePageToDisk` and decoding that image back with `LoadPage` yields
a page with identical `pageId`, `recordCount`, `freeSpace`,
`dataStart`, and buffer contents (all 4080 data-region bytes). -/
theorem c5_page_image_roundtrip (d : DiskModel) {pid : Nat} {p : Page}
    (hpid : pid < 18446744073709551616)
    (hseq : WriteSeq (freshPage pid) p)
    (hfw : d.failWrite (p.pageId * 4096) = false)
    (hfr : d.failRead (p.pageId * 4096) = false) :
    writePageToDisk d p = .ok (writtenDisk d p) ∧
    isOkE (loadPage (writtenDisk d p) p.pageId) = true ∧
    (okPage (loadPage (writtenDisk d p) p.pageId) (freshPage 0)).pageId =
      p.pageId ∧
    (okPage (loadPage (writtenDisk d p) p.pageId) (freshPage 0)).count =
      p.count ∧
    (okPage (loadPage (writtenDisk d p) p.pageId) (freshPage 0)).freeSpace =
      p.freeSpace ∧
    (okPage (loadPage (writtenDisk d p) p.pageId) (freshPage 0)).dataStart =
      p.dataStart ∧
    (∀ i, i < 4080 →
      (okPage (loadPage (writtenDisk d p) p.pageId) (freshPage 0)).buf i =
        p.buf i) := by
  obtain ⟨⟨recs, hrep⟩, hpideq, hds4080⟩ := writeSeq_rep hseq
  obtain ⟨hc, hfsb, hz, hnz, -, -⟩ := hrep
  have hcb : p.count ≤ 680 := by
    by_cases h0 : p.count = 0
    · omega
    · obtain ⟨h1, h2⟩ := hnz h0
      omega
  have hrb : ∀ i, i < 4096 →
      (writtenDisk d p).data (p.pageId * 4096 + i) = encodePage p i := by
    intro i hi
    simp only [writtenDisk]
    rw [if_pos (by omega)]
    congr 1
    omega
  have hload : loadPage (writtenDisk d p) p.pageId = .ok
      { pageId := getUint64 (fun i => (writtenDisk d p).data
          (p.pageId * 4096 + i)) 0
        count := getUint32 (fun i => (writtenDisk d p).data
          (p.pageId * 4096 + i)) 8
        freeSpace := getUint16 (fun i => (writtenDisk d p).data
          (p.pageId * 4096 + i)) 12
        dataStart := getUint16 (fun i => (writtenDisk d p).data
          (p.pageId * 4096 + i)) 14
        buf := fun i => (writtenDisk d p).data
          (p.pageId * 4096 + (16 + i)) } := by
    unfold loadPage diskRead
    have hfr' : (writtenDisk d p).failRead (p.pageId * 4096) = false := hfr
    rw [hfr']
    rfl
  rw [hload]
  simp only [okPage, isOkE]
  refine ⟨writePageToDisk_ok d p hfw, trivial, ?_, ?_, ?_, ?_, ?_⟩
  · rw [getUint64_congr _ (encodePage p) 0 (fun j h1 h2 => hrb j (by omega)),
      encodePage_pageId]
    omega
  · rw [getUint32_congr _ (encodePage p) 8 (fun j h1 h2 => hrb j (by omega)),
      encodePage_count]
    omega
  · rw [getUint16_congr _ (encodePage p) 12 (fun j h1 h2 => hrb j (by omega)),
      encodePage_freeSpace]
    omega
  · rw [getUint16_congr _ (encodePage p) 14 (fun j h1 h2 => hrb j (by omega)),
      encodePage_dataStart]
    omega
  · intro i hi
    rw [hrb (16 + i) (by omega), encodePage_buf p (16 + i) (by omega)]
    congr 1
    omega

/-- A fault-free all-zero disk. -/
def dZero : DiskModel :=
  { data := fun _ => 0, failRead := fun _ => false, failWrite := fun _ => false }

theorem c5_witness :
    writePageToDisk dZero (freshPage 1) =
      .ok (writtenDisk dZero (freshPage 1)) ∧
    isOkE (loadPage (writtenDisk dZero (freshPage 1))
      (freshPage 1).pageId) = true ∧
    (okPage (loadPage (writtenDisk dZero (freshPage 1))
      (freshPage 1).pageId) (freshPage 0)).pageId = (freshPage 1).pageId ∧
    (okPage (loadPage (writtenDisk dZero (freshPage 1))
      (freshPage 1).pageId) (freshPage 0)).count = (freshPage 1).count ∧
    (okPage (loadPage (writtenDisk dZero (freshPage 1))
      (freshPage 1).pageId) (freshPage 0)).freeSpace =
      (freshPage 1).freeSpace ∧
    (okPage (loadPage (writtenDisk dZero (freshPage 1))
      (freshPage 1).pageId) (freshPage 0)).dataStart =
      (freshPage 1).dataStart ∧
    (∀ i, i < 4080 →
      (okPage (loadPage (writtenDisk dZero (freshPage 1))
        (freshPage 1).pageId) (freshPage 0)).buf i = (freshPage 1).buf i) :=
  c5_page_image_roundtrip dZero (by decide)
    (WriteSeq.refl (freshPage 1)) rfl rfl
